import Mathlib

/-!
Verification development for the Reliable-UDP endpoint (RUDP_Socket_p,
src/rudp_lib.cpp and src/include/RUDP_API_wrap.hpp).

The C++ core is shallowly embedded: machine integers are Nat with explicit
`% 2^w` where the C arithmetic can wrap, packets on the wire are lists of
byte values, and the blocking loops are functions over explicit event lists
(one event per loop iteration), returning `Option` where the C code can
throw or keep waiting.
-/

namespace RUDP

/-! ## Protocol constants (RUDP_API_wrap.hpp) -/

def RUDP_FLAG_SYN : Nat := 0x01
def RUDP_FLAG_ACK : Nat := 0x02
def RUDP_FLAG_PSH : Nat := 0x04
def RUDP_FLAG_LAST : Nat := 0x08
def RUDP_FLAG_FIN : Nat := 0x10

/-- sizeof(RUDP_header) = 12 bytes. -/
def HEADER_SIZE : Nat := 12

/-- RUDP_MINIMAL_MTU = sizeof(RUDP_header) + sizeof(RUDP_SYN_packet) = 20. -/
def RUDP_MINIMAL_MTU : Nat := 20

def RUDP_MINIMAL_TIMEOUT : Nat := 10

/-! ## Checksum (RUDP_Socket_p::_calculate_checksum, rudp_lib.cpp:24-33)

The C code walks the buffer as `uint16_t *` on a little-endian host, so each
16-bit word is `b[2i] + 256 * b[2i+1]`; an odd trailing byte is added as is.
Carries are folded until the sum fits 16 bits, and the one's complement of
the folded sum is returned as `uint16_t`. -/

/-- Successive 16-bit little-endian words of a byte list; an odd trailing
byte contributes its own value (the `data_size % 2` branch). -/
def words16LE : List Nat → List Nat
  | [] => []
  | [b] => [b]
  | b0 :: b1 :: rest => (b0 + 256 * b1) :: words16LE rest

/-- The carry-folding loop: `while (checksum >> 16) checksum = (checksum & 0xFFFF) + (checksum >> 16)`.
Structural recursion on a fuel argument; each iteration strictly decreases the
sum, so fuel equal to the initial value always suffices (see `foldCarry`). -/
def foldCarryAux : Nat → Nat → Nat
  | 0, c => c
  | fuel + 1, c => if c < 65536 then c else foldCarryAux fuel (c % 65536 + c / 65536)

def foldCarry (c : Nat) : Nat := foldCarryAux c c

/-- `_calculate_checksum`: fold the 16-bit word sum, return its complement
as a 16-bit value (`return ~checksum` truncated to uint16_t). -/
def calculate_checksum (data : List Nat) : Nat :=
  65535 - foldCarry (words16LE data).sum

/-! ## Validator (RUDP_Socket_p::_check_packet_validity, rudp_lib.cpp:77-179) -/

/-- Byte `i` of a packet (0 when out of range). -/
def getByte (p : List Nat) (i : Nat) : Nat := p.getD i 0

/-- `ntohs` of the two bytes at offsets `i`, `i+1` (network byte order on the wire). -/
def be16At (p : List Nat) (i : Nat) : Nat := 256 * getByte p i + getByte p (i + 1)

/-- `ntohl` of the four bytes at offsets `i..i+3`. -/
def be32At (p : List Nat) (i : Nat) : Nat :=
  16777216 * getByte p i + 65536 * getByte p (i + 1) + 256 * getByte p (i + 2) + getByte p (i + 3)

/-- `header->checksum = 0` before recomputing: zero bytes 6 and 7. -/
def zeroChecksumField (p : List Nat) : List Nat := (p.set 6 0).set 7 0

/-- Result of `_check_packet_validity`: the returned int (1 valid, 0 drop,
-1 FIN/peer-closed), the possibly updated `m_isConnected`, and whether a
FIN|ACK was sent back (the connected-FIN branch, rudp_lib.cpp:148). -/
structure ValidatorResult where
  validity : Int
  connectedAfter : Bool
  sentFinAck : Bool
deriving DecidableEq

/-- `_check_packet_validity(packet, packet_size, expected_flags)` over the
received bytes `p`, with the endpoint's `m_isConnected` passed explicitly. -/
def check_packet_validity (p : List Nat) (connected : Bool) (expected_flags : Nat) :
    ValidatorResult :=
  if p.length < HEADER_SIZE then ⟨0, connected, false⟩
  else
    let chksum := be16At p 6
    let len := be16At p 4
    let flags := getByte p 8
    let recomputed := calculate_checksum (zeroChecksumField p)
    if len ≠ p.length - HEADER_SIZE then ⟨0, connected, false⟩
    else if chksum ≠ recomputed then ⟨0, connected, false⟩
    else if flags = RUDP_FLAG_FIN ∧ expected_flags ≠ RUDP_FLAG_FIN ∧
        expected_flags ≠ RUDP_FLAG_FIN + RUDP_FLAG_ACK then
      if connected = false then
        if expected_flags &&& RUDP_FLAG_SYN ≠ 0 then ⟨-1, connected, false⟩
        else ⟨0, connected, false⟩
      else ⟨-1, false, true⟩
    else if expected_flags ≠ 0 ∧ flags ≠ expected_flags ∧
        (flags &&& RUDP_FLAG_LAST = 0 ∧ flags &&& RUDP_FLAG_PSH = 0) then
      ⟨0, connected, false⟩
    else ⟨1, connected, false⟩

/-! ### C5: validator FIN rule while disconnected -/

/-- C5, the claim as stated is false. A lone FIN packet with a correct
checksum and length, received while not connected with expected mask SYN
(0x01, the mask used during accept), yields PeerClosed (-1), not Drop (0):
the code tests `expected_flags & RUDP_FLAG_SYN`, which plain SYN satisfies. -/
theorem C5_counterexample :
    (check_packet_validity [0, 0, 0, 0, 0, 0, 255, 239, 16, 0, 0, 0] false 1).validity = -1 ∧
    (-1 : Int) ≠ 0 := by
  constructor
  · decide
  · decide

/-- C5 (corrected): when a received packet's flags equal exactly FIN, the
endpoint is not connected, and the expected mask permits neither FIN nor
FIN|ACK, the validator returns PeerClosed (-1) if and only if the expected
mask has the SYN bit set — both SYN|ACK (connect) and plain SYN (accept) —
and Drop (0) for every expected mask without the SYN bit. -/
theorem C5_fin_while_disconnected (p : List Nat) (expected : Nat)
    (hsize : HEADER_SIZE ≤ p.length)
    (hlen : be16At p 4 = p.length - HEADER_SIZE)
    (hck : be16At p 6 = calculate_checksum (zeroChecksumField p))
    (hflags : getByte p 8 = RUDP_FLAG_FIN)
    (h1 : expected ≠ RUDP_FLAG_FIN)
    (h2 : expected ≠ RUDP_FLAG_FIN + RUDP_FLAG_ACK) :
    (check_packet_validity p false expected).validity =
      if expected &&& RUDP_FLAG_SYN ≠ 0 then -1 else 0 := by
  unfold check_packet_validity
  rw [if_neg (by omega)]
  rw [if_neg (by simp [hlen])]
  rw [if_neg (by simp [hck])]
  rw [if_pos (by exact ⟨hflags, h1, h2⟩)]
  rw [if_pos rfl]
  split
  · rfl
  · rfl

/-- C5 witness: the corrected rule evaluated on the concrete lone-FIN packet
with the plain SYN mask used during accept. -/
theorem C5_fin_while_disconnected_witness :
    (check_packet_validity [0, 0, 0, 0, 0, 0, 255, 239, 16, 0, 0, 0] false 1).validity =
      if 1 &&& RUDP_FLAG_SYN ≠ 0 then -1 else 0 :=
  C5_fin_while_disconnected [0, 0, 0, 0, 0, 0, 255, 239, 16, 0, 0, 0] 1
    (by decide) (by decide) (by decide) (by decide) (by decide) (by decide)

/-! ## Endpoint state (RUDP_Socket_p fields, RUDP_API_wrap.hpp:184-232) -/

/-- IPv4 address + port (m_destinationAddress4). `addrZero` is the all-zero
value produced by `memset(&m_destinationAddress4, 0, ...)`. -/
structure SockAddr where
  ip : Nat
  port : Nat
deriving DecidableEq

def addrZero : SockAddr := ⟨0, 0⟩

/-- The endpoint's mutable fields. `cfgMTU`, `cfgTimeout`, `cfgMaxRetries`
are `m_protocolMTU`, `m_protocolTimeout`, `m_protocolMaximumRetries`;
`peerMTU` is `m_peersMTU` (0-initialized in the class). -/
structure Endpoint where
  isServer : Bool
  connected : Bool
  debugMode : Bool
  peerAddr : SockAddr
  cfgMTU : Nat
  cfgTimeout : Nat
  cfgMaxRetries : Nat
  peerMTU : Nat
deriving DecidableEq

/-- Constructor `RUDP_Socket_p::RUDP_Socket_p` (rudp_lib.cpp:196-229):
rejects MTU < RUDP_MINIMAL_MTU, timeout < RUDP_MINIMAL_TIMEOUT and
max_retries = 0 by throwing (`none`); otherwise the endpoint starts
disconnected with `m_peersMTU = 0`. -/
def mkEndpoint (isServer : Bool) (mtu timeout maxRetries : Nat) (debug : Bool) :
    Option Endpoint :=
  if mtu < RUDP_MINIMAL_MTU ∨ timeout < RUDP_MINIMAL_TIMEOUT ∨ maxRetries = 0 then none
  else some ⟨isServer, false, debug, addrZero, mtu, timeout, maxRetries, 0⟩

/-! ## Setters (RUDP_API_wrap.hpp:397-446). A thrown precondition failure is
modelled as `none`; `some e` is the state after a successful call. -/

/-- `setMTU` (hpp:407-411): refuses while connected, then refuses MTU below
the minimum. -/
def setMTU (e : Endpoint) (v : Nat) : Option Endpoint :=
  if e.connected then none
  else if v < RUDP_MINIMAL_MTU then none
  else some { e with cfgMTU := v }

/-- `setTimeout` (hpp:420-423): the code checks only the minimum-timeout
bound; there is no `m_isConnected` test. -/
def setTimeout (e : Endpoint) (v : Nat) : Option Endpoint :=
  if v < RUDP_MINIMAL_TIMEOUT then none
  else some { e with cfgTimeout := v }

/-- `setMaxRetries` (hpp:432-435): the code checks only `max_retries < 1`;
there is no `m_isConnected` test. -/
def setMaxRetries (e : Endpoint) (v : Nat) : Option Endpoint :=
  if v < 1 then none
  else some { e with cfgMaxRetries := v }

/-- `forceUseOwnMTU` (hpp:443-446). -/
def forceUseOwnMTU (e : Endpoint) : Option Endpoint :=
  if e.connected = false then none
  else some { e with peerMTU := e.cfgMTU }

/-! ### C6: configuration immutability while connected -/

/-- C6, the code contradicts the claim (and the setters' own doc comments):
on a connected endpoint, `setTimeout(50)` and `setMaxRetries(7)` are both
accepted and overwrite the stored configuration, because neither setter
tests `m_isConnected` (only `setMTU` does, shown for contrast). -/
theorem C6_setters_mutate_while_connected :
    (let e : Endpoint := ⟨false, true, false, ⟨2130706433, 5555⟩, 1458, 100, 50, 1458⟩
     setTimeout e 50 = some { e with cfgTimeout := 50 } ∧
     setMaxRetries e 7 = some { e with cfgMaxRetries := 7 } ∧
     setMTU e 1000 = none ∧
     e.connected = true) := by
  refine ⟨rfl, rfl, rfl, rfl⟩

/-! ## Connection-lifecycle state machine (C7, C8)

Each operation of the endpoint that touches the dynamic state is an `Op`;
`step` applies its effect exactly as the C code does, and leaves the state
unchanged when the operation throws before mutating anything. -/

inductive Op where
  /-- `connect` reaching the Accept branch (rudp_lib.cpp:296-319): the peer
  address was filled from the arguments before the SYN loop, and the
  advertised MTU of the SYN|ACK payload is adopted unchecked. -/
  | connectOk (addr : SockAddr) (advMTU : Nat)
  /-- `connect` exhausting its retries (rudp_lib.cpp:321-326): the peer
  address was still overwritten with the destination argument. -/
  | connectFail (addr : SockAddr)
  /-- `accept` completing (rudp_lib.cpp:346-378): stores the source address
  and adopts the advertised MTU of the SYN payload unchecked. -/
  | acceptOk (addr : SockAddr) (advMTU : Nat)
  /-- `disconnect` on a connected endpoint (rudp_lib.cpp:641-698): both the
  success exit and the retry-exhaustion exit clear `m_isConnected` and
  `m_destinationAddress4` and leave every other field alone. -/
  | disconnectRun
  /-- The validator's connected-FIN branch (rudp_lib.cpp:148-150): clears
  `m_isConnected` only. -/
  | peerFinWhileConnected
  | forceOwn
  | setMTUOp (v : Nat)
  | setTimeoutOp (v : Nat)
  | setMaxRetriesOp (v : Nat)
  | setDebugOp (b : Bool)
deriving DecidableEq

def step (e : Endpoint) : Op → Endpoint
  | .connectOk addr adv =>
      if e.isServer ∨ e.connected then e
      else { e with peerAddr := addr, connected := true, peerMTU := adv }
  | .connectFail addr =>
      if e.isServer ∨ e.connected then e
      else { e with peerAddr := addr }
  | .acceptOk addr adv =>
      if e.isServer = false ∨ e.connected then e
      else { e with connected := true, peerMTU := adv, peerAddr := addr }
  | .disconnectRun =>
      if e.connected = false then e
      else { e with connected := false, peerAddr := addrZero }
  | .peerFinWhileConnected =>
      if e.connected = false then e
      else { e with connected := false }
  | .forceOwn => (forceUseOwnMTU e).getD e
  | .setMTUOp v => (setMTU e v).getD e
  | .setTimeoutOp v => (setTimeout e v).getD e
  | .setMaxRetriesOp v => (setMaxRetries e v).getD e
  | .setDebugOp b => { e with debugMode := b }

def runOps (e : Endpoint) : List Op → Endpoint
  | [] => e
  | op :: rest => runOps (step e op) rest

/-- A handshake event is well behaved when the peer's SYN payload advertises
an MTU of at least RUDP_MINIMAL_MTU and the handshake address is not the
all-zero address. Conforming peers built from this library always satisfy
this (their constructor and setMTU enforce the bound). -/
def goodOp : Op → Bool
  | .connectOk addr adv => decide (RUDP_MINIMAL_MTU ≤ adv) && decide (addr ≠ addrZero)
  | .acceptOk addr adv => decide (RUDP_MINIMAL_MTU ≤ adv) && decide (addr ≠ addrZero)
  | _ => true

/-- Step invariant used for C7: the configured MTU stays above the minimum,
and a connected endpoint has a nonzero peer address and an in-range peer MTU. -/
def Inv (e : Endpoint) : Prop :=
  RUDP_MINIMAL_MTU ≤ e.cfgMTU ∧
    (e.connected = true → e.peerAddr ≠ addrZero ∧ RUDP_MINIMAL_MTU ≤ e.peerMTU)

theorem step_preserves_Inv (e : Endpoint) (op : Op) (hInv : Inv e)
    (hop : goodOp op = true) : Inv (step e op) := by
  obtain ⟨hmtu, hconn⟩ := hInv
  cases op with
  | connectOk addr adv =>
      simp only [goodOp, Bool.and_eq_true, decide_eq_true_eq] at hop
      simp only [step]
      split
      · exact ⟨hmtu, hconn⟩
      · exact ⟨hmtu, fun _ => ⟨hop.2, hop.1⟩⟩
  | connectFail addr =>
      simp only [step]
      split
      · exact ⟨hmtu, hconn⟩
      · next h =>
          refine ⟨hmtu, fun hc => ?_⟩
          simp only [not_or] at h
          exact absurd hc h.2
  | acceptOk addr adv =>
      simp only [goodOp, Bool.and_eq_true, decide_eq_true_eq] at hop
      simp only [step]
      split
      · exact ⟨hmtu, hconn⟩
      · exact ⟨hmtu, fun _ => ⟨hop.2, hop.1⟩⟩
  | disconnectRun =>
      simp only [step]
      split
      · exact ⟨hmtu, hconn⟩
      · exact ⟨hmtu, fun hc => by simp at hc⟩
  | peerFinWhileConnected =>
      simp only [step]
      split
      · exact ⟨hmtu, hconn⟩
      · exact ⟨hmtu, fun hc => by simp at hc⟩
  | forceOwn =>
      simp only [step, forceUseOwnMTU]
      split
      · simp only [Option.getD_none]
        exact ⟨hmtu, hconn⟩
      · next h =>
          simp only [Option.getD_some]
          have hcon : e.connected = true := by
            simpa using h
          exact ⟨hmtu, fun _ => ⟨(hconn hcon).1, hmtu⟩⟩
  | setMTUOp v =>
      simp only [step, setMTU]
      split
      · simp only [Option.getD_none]
        exact ⟨hmtu, hconn⟩
      · split
        · simp only [Option.getD_none]
          exact ⟨hmtu, hconn⟩
        · next h2 =>
            simp only [Option.getD_some]
            exact ⟨Nat.le_of_not_lt h2, hconn⟩
  | setTimeoutOp v =>
      simp only [step, setTimeout]
      split
      · simp only [Option.getD_none]
        exact ⟨hmtu, hconn⟩
      · simp only [Option.getD_some]
        exact ⟨hmtu, hconn⟩
  | setMaxRetriesOp v =>
      simp only [step, setMaxRetries]
      split
      · simp only [Option.getD_none]
        exact ⟨hmtu, hconn⟩
      · simp only [Option.getD_some]
        exact ⟨hmtu, hconn⟩
  | setDebugOp b =>
      simp only [step]
      exact ⟨hmtu, hconn⟩

theorem runOps_preserves_Inv (ops : List Op) :
    ∀ e : Endpoint, Inv e → (∀ op ∈ ops, goodOp op = true) → Inv (runOps e ops) := by
  induction ops with
  | nil => exact fun e hInv _ => hInv
  | cons op rest ih =>
      intro e hInv hops
      exact ih (step e op) (step_preserves_Inv e op hInv (hops op (by simp)))
        (fun o ho => hops o (by simp [ho]))

/-! ### C7: connected-state invariant -/

/-- C7, the claim as stated is false: from a freshly constructed server
endpoint (MTU 1458, timeout 100, retries 50), a single completed `accept`
whose SYN payload advertises MTU 7 — below RUDP_MINIMAL_MTU — is adopted
unchecked, reaching a state with `connected = true` and `peer_mtu = 7 < 20`. -/
theorem C7_counterexample :
    (let s := runOps ⟨true, false, false, addrZero, 1458, 100, 50, 0⟩
       [Op.acceptOk ⟨2130706433, 5555⟩ 7]
     s.connected = true ∧ s.peerMTU < RUDP_MINIMAL_MTU) := by
  exact ⟨rfl, by decide⟩

/-- C7 (corrected): in every state reachable from a constructed endpoint,
`connected = true` implies `peer_addr ≠ 0.0.0.0:0` and `peer_mtu ≥ MIN_MTU`,
provided every completed handshake advertises an MTU of at least MIN_MTU and
a nonzero peer address (`goodOp`); the code adopts the advertised value
without any check, so the bound does not hold for arbitrary SYN payloads. -/
theorem C7_connected_invariant (srv : Bool) (mtu timeout retries : Nat) (dbg : Bool)
    (e : Endpoint) (ops : List Op)
    (hmk : mkEndpoint srv mtu timeout retries dbg = some e)
    (hops : ∀ op ∈ ops, goodOp op = true)
    (hconn : (runOps e ops).connected = true) :
    (runOps e ops).peerAddr ≠ addrZero ∧ RUDP_MINIMAL_MTU ≤ (runOps e ops).peerMTU := by
  have hInv0 : Inv e := by
    unfold mkEndpoint at hmk
    split at hmk
    · exact absurd hmk (by simp)
    · next h =>
        cases hmk
        refine ⟨show RUDP_MINIMAL_MTU ≤ mtu by omega, fun hc => by simp at hc⟩
  exact (runOps_preserves_Inv ops e hInv0 hops).2 hconn

/-- C7 witness: a client endpoint that connects to a conforming peer
advertising MTU 500, then disconnects and reconnects. -/
theorem C7_connected_invariant_witness :
    (runOps ⟨false, false, false, addrZero, 1458, 100, 50, 0⟩
        [Op.connectOk ⟨2130706433, 5555⟩ 500, Op.disconnectRun,
         Op.connectOk ⟨2130706433, 6666⟩ 1458]).peerAddr ≠ addrZero ∧
    RUDP_MINIMAL_MTU ≤ (runOps ⟨false, false, false, addrZero, 1458, 100, 50, 0⟩
        [Op.connectOk ⟨2130706433, 5555⟩ 500, Op.disconnectRun,
         Op.connectOk ⟨2130706433, 6666⟩ 1458]).peerMTU :=
  C7_connected_invariant false 1458 100 50 false
    ⟨false, false, false, addrZero, 1458, 100, 50, 0⟩
    [Op.connectOk ⟨2130706433, 5555⟩ 500, Op.disconnectRun,
     Op.connectOk ⟨2130706433, 6666⟩ 1458]
    (by decide) (by decide) (by decide)

/-! ### C8: peer_mtu lifecycle -/

/-- C8, the claim as stated is false: after a completed `accept` adopting
peer MTU 500 followed by a completed `disconnect`, `peer_mtu` is still 500,
not 0 — no exit of `disconnect` touches `m_peersMTU`. -/
theorem C8_counterexample :
    (let s := runOps ⟨true, false, false, addrZero, 1458, 100, 50, 0⟩
       [Op.acceptOk ⟨2130706433, 5555⟩ 500, Op.disconnectRun]
     s.connected = false ∧ s.peerMTU = 500 ∧ s.peerMTU ≠ 0) := by
  exact ⟨rfl, rfl, by decide⟩

/-- C8 (corrected): `peer_mtu` is assigned at handshake completion in
`connect` or `accept` (to the advertised value) and may be reassigned during
the connection by `force_use_own_mtu`; no exit of `disconnect()` modifies
`peer_mtu` — teardown clears only `connected` and `peer_addr` — so after a
completed teardown `peer_mtu` retains the last connection's value (it is 0
only while the endpoint has never completed a handshake). -/
theorem C8_peer_mtu_lifecycle :
    (∀ e : Endpoint, e.connected = true →
      step e .disconnectRun = { e with connected := false, peerAddr := addrZero }) ∧
    (∀ (e : Endpoint) (a : SockAddr) (v : Nat), e.isServer = false → e.connected = false →
      (step e (.connectOk a v)).peerMTU = v) ∧
    (∀ (e : Endpoint) (a : SockAddr) (v : Nat), e.isServer = true → e.connected = false →
      (step e (.acceptOk a v)).peerMTU = v) ∧
    (∀ e : Endpoint, e.connected = true → (step e .forceOwn).peerMTU = e.cfgMTU) := by
  refine ⟨fun e hc => ?_, fun e a v hs hc => ?_, fun e a v hs hc => ?_, fun e hc => ?_⟩
  · simp [step, hc]
  · simp [step, hs, hc]
  · simp [step, hs, hc]
  · simp [step, forceUseOwnMTU, hc]

/-- C8 witness: the corrected lifecycle evaluated on a concrete connected
endpoint and a concrete fresh client. -/
theorem C8_peer_mtu_lifecycle_witness :
    (step ⟨true, true, false, ⟨2130706433, 5555⟩, 1458, 100, 50, 500⟩ .disconnectRun =
      { (⟨true, true, false, ⟨2130706433, 5555⟩, 1458, 100, 50, 500⟩ : Endpoint) with
          connected := false, peerAddr := addrZero }) ∧
    (step ⟨false, false, false, addrZero, 1458, 100, 50, 0⟩
        (.connectOk ⟨2130706433, 5555⟩ 500)).peerMTU = 500 :=
  ⟨C8_peer_mtu_lifecycle.1 ⟨true, true, false, ⟨2130706433, 5555⟩, 1458, 100, 50, 500⟩ rfl,
   C8_peer_mtu_lifecycle.2.1 ⟨false, false, false, addrZero, 1458, 100, 50, 0⟩
     ⟨2130706433, 5555⟩ 500 rfl rfl⟩

/-! ## Teardown loop (RUDP_Socket_p::disconnect, rudp_lib.cpp:641-698)

One `DiscEvent` per iteration of the retry loop body: a poll timeout, a
datagram from a foreign source (`_check_packet_source` nonzero, which does
`num_of_tries--` so the retry budget is not consumed), a packet the
validator drops (validity 0), or a response the validator does not drop.
With `expected_flags = FIN|ACK` the validator never returns -1 (its FIN
branch requires the expected mask to be neither FIN nor FIN|ACK), so any
non-dropped response reaches the success exit. -/

inductive DiscEvent where
  | timeout
  | srcMismatch
  | invalidPacket
  | validResponse
deriving DecidableEq

/-- `connected = false`, `memset(&m_destinationAddress4, 0, ...)` — the state
effect shared by the success exit and the exhaustion exit of `disconnect`. -/
def clearPeer (e : Endpoint) : Endpoint := { e with connected := false, peerAddr := addrZero }

/-- The `for (num_of_tries = 0; num_of_tries < m_protocolMaximumRetries; ...)`
loop of `disconnect`. `none` means the supplied event list ran out while the
loop was still waiting (the call has not returned yet); `some (r, e)` is a
non-throwing exit with return value `r` and post-state `e`. -/
def disconnectLoop (maxR : Nat) : List DiscEvent → Nat → Endpoint → Option (Bool × Endpoint)
  | evs, tries, e =>
    if maxR ≤ tries then some (true, clearPeer e)
    else
      match evs with
      | [] => none
      | .timeout :: rest => disconnectLoop maxR rest (tries + 1) e
      | .srcMismatch :: rest => disconnectLoop maxR rest tries e
      | .invalidPacket :: rest => disconnectLoop maxR rest (tries + 1) e
      | .validResponse :: _ => some (true, clearPeer e)

/-- `disconnect()`: throws (`none`) when not connected (rudp_lib.cpp:643),
otherwise runs the FIN retry loop. -/
def disconnect (e : Endpoint) (evs : List DiscEvent) : Option (Bool × Endpoint) :=
  if e.connected = false then none
  else disconnectLoop e.cfgMaxRetries evs 0 e

theorem disconnectLoop_exits_cleared (maxR : Nat) (evs : List DiscEvent) :
    ∀ (tries : Nat) (e : Endpoint) (r : Bool) (e' : Endpoint),
      disconnectLoop maxR evs tries e = some (r, e') → r = true ∧ e' = clearPeer e := by
  induction evs with
  | nil =>
      intro tries e r e' h
      unfold disconnectLoop at h
      split at h
      · cases h; exact ⟨rfl, rfl⟩
      · cases h
  | cons ev rest ih =>
      intro tries e r e' h
      unfold disconnectLoop at h
      split at h
      · cases h; exact ⟨rfl, rfl⟩
      · cases ev with
        | timeout => exact ih (tries + 1) e r e' h
        | srcMismatch => exact ih tries e r e' h
        | invalidPacket => exact ih (tries + 1) e r e' h
        | validResponse => cases h; exact ⟨rfl, rfl⟩

/-! ### C9: teardown postcondition -/

/-- C9 (confirmed): for every call to `disconnect()` made while connected,
every non-throwing exit — whether a valid response was accepted or the retry
budget was exhausted, under any sequence of timeouts, foreign-source
datagrams and dropped packets — reports success (true) and leaves the
endpoint with `connected = false` and `peer_addr` cleared to all-zero;
retry exhaustion is never surfaced as failure. -/
theorem C9_teardown_postcondition (e : Endpoint) (evs : List DiscEvent)
    (r : Bool) (e' : Endpoint)
    (hconn : e.connected = true)
    (hrun : disconnect e evs = some (r, e')) :
    r = true ∧ e'.connected = false ∧ e'.peerAddr = addrZero := by
  unfold disconnect at hrun
  rw [if_neg (by simp [hconn])] at hrun
  obtain ⟨hr, he⟩ := disconnectLoop_exits_cleared e.cfgMaxRetries evs 0 e r e' hrun
  subst he
  exact ⟨hr, rfl, rfl⟩

/-- C9 witness: a concrete connected endpoint tearing down through two
timeouts, one stray datagram, one dropped packet and then a valid FIN|ACK. -/
theorem C9_teardown_postcondition_witness :
    (true : Bool) = true ∧
    (clearPeer ⟨false, true, false, ⟨2130706433, 5555⟩, 1458, 100, 50, 1458⟩).connected = false ∧
    (clearPeer ⟨false, true, false, ⟨2130706433, 5555⟩, 1458, 100, 50, 1458⟩).peerAddr = addrZero :=
  C9_teardown_postcondition ⟨false, true, false, ⟨2130706433, 5555⟩, 1458, 100, 50, 1458⟩
    [.timeout, .srcMismatch, .invalidPacket, .timeout, .validResponse]
    true (clearPeer ⟨false, true, false, ⟨2130706433, 5555⟩, 1458, 100, 50, 1458⟩)
    rfl (by decide)

/-! ## Transmission counts under total loss (C10)

When no datagram ever arrives, every `poll` returns 0, so each loop
iteration is a timeout. The loops differ in shape:
- `send`'s ACK-wait loop (rudp_lib.cpp:567-572) runs
  `for (num_of_tries = 0; num_of_tries <= max; num_of_tries++)` and throws
  when `num_of_tries == max` BEFORE sending, so it transmits the segment
  once per iteration with `num_of_tries < max`;
- `connect`'s loop (rudp_lib.cpp:258-276) and `disconnect`'s loop
  (rudp_lib.cpp:649-666) run `for (num_of_tries = 0; num_of_tries < max;
  num_of_tries++)`, sending their control packet at the top of each
  iteration and falling through after `max` iterations;
- `accept` (rudp_lib.cpp:340-344) blocks in `recvfrom` and transmits
  nothing until a datagram arrives. -/

/-- Transmissions performed by `send`'s ACK-wait loop from retry counter
`tries` until the `num_of_tries == max` throw, when every poll times out. -/
def ackWaitLossSends (maxR : Nat) (tries : Nat) : Nat :=
  if maxR ≤ tries then 0
  else 1 + ackWaitLossSends maxR (tries + 1)
termination_by maxR - tries

/-- Data-packet transmissions of a `send` of `k` segments under total loss:
for `k ≥ 1` the first segment's ACK-wait loop throws after `maxR`
transmissions and the whole call aborts; a hypothetical `k = 0` sends
nothing. -/
def sendLossTransmissions (k maxR : Nat) : Nat :=
  if k = 0 then 0 else ackWaitLossSends maxR 0

/-- SYN transmissions of `connect` under total loss: one per iteration of
its retry loop, which runs exactly `maxR` times and then returns false. -/
def connectLossSynSends (maxR : Nat) (tries : Nat) : Nat :=
  if maxR ≤ tries then 0
  else 1 + connectLossSynSends maxR (tries + 1)
termination_by maxR - tries

/-- FIN transmissions of `disconnect` under total loss: same loop shape as
`connect`; after `maxR` iterations the exhaustion exit is taken. -/
def disconnectLossFinSends (maxR : Nat) (tries : Nat) : Nat :=
  if maxR ≤ tries then 0
  else 1 + disconnectLossFinSends maxR (tries + 1)
termination_by maxR - tries

/-- SYN|ACK transmissions of `accept` under total loss: the blocking
`recvfrom` never returns, so nothing is ever sent. -/
def acceptLossSynAckSends : Nat := 0

theorem ackWaitLossSends_eq (maxR : Nat) :
    ∀ n tries : Nat, maxR - tries = n → ackWaitLossSends maxR tries = maxR - tries := by
  intro n
  induction n with
  | zero =>
      intro tries hn
      unfold ackWaitLossSends
      rw [if_pos (by omega)]
      omega
  | succ n ihn =>
      intro tries hn
      unfold ackWaitLossSends
      rw [if_neg (by omega)]
      rw [ihn (tries + 1) (by omega)]
      omega

theorem connectLossSynSends_eq (maxR : Nat) :
    ∀ n tries : Nat, maxR - tries = n → connectLossSynSends maxR tries = maxR - tries := by
  intro n
  induction n with
  | zero =>
      intro tries hn
      unfold connectLossSynSends
      rw [if_pos (by omega)]
      omega
  | succ n ihn =>
      intro tries hn
      unfold connectLossSynSends
      rw [if_neg (by omega)]
      rw [ihn (tries + 1) (by omega)]
      omega

theorem disconnectLossFinSends_eq (maxR : Nat) :
    ∀ n tries : Nat, maxR - tries = n → disconnectLossFinSends maxR tries = maxR - tries := by
  intro n
  induction n with
  | zero =>
      intro tries hn
      unfold disconnectLossFinSends
      rw [if_pos (by omega)]
      omega
  | succ n ihn =>
      intro tries hn
      unfold disconnectLossFinSends
      rw [if_neg (by omega)]
      rw [ihn (tries + 1) (by omega)]
      omega

/-! ### C10: bounded effort under total loss -/

/-- C10 (confirmed): under total loss a `send` of `k ≥ 1` segments performs
at most `k × max_retries` data-packet transmissions before failing (in fact
exactly `max_retries`: the first segment's loop throws), and `connect`,
`accept` and `disconnect` transmit their control packet (SYN, SYN|ACK, FIN)
at most `max_retries` times before giving up. -/
theorem C10_bounded_effort (k maxR : Nat) (hk : 1 ≤ k) :
    sendLossTransmissions k maxR ≤ k * maxR ∧
    connectLossSynSends maxR 0 ≤ maxR ∧
    acceptLossSynAckSends ≤ maxR ∧
    disconnectLossFinSends maxR 0 ≤ maxR := by
  refine ⟨?_, ?_, ?_, ?_⟩
  · unfold sendLossTransmissions
    rw [if_neg (by omega), ackWaitLossSends_eq maxR (maxR - 0) 0 rfl]
    have h1 : maxR - 0 = maxR := by omega
    rw [h1]
    calc maxR = 1 * maxR := by omega
      _ ≤ k * maxR := Nat.mul_le_mul_right maxR hk
  · rw [connectLossSynSends_eq maxR (maxR - 0) 0 rfl]
    omega
  · exact Nat.zero_le _
  · rw [disconnectLossFinSends_eq maxR (maxR - 0) 0 rfl]
    omega

/-- C10 witness: the bound evaluated at a 3-segment send with the default
retry budget of 50. -/
theorem C10_bounded_effort_witness :
    sendLossTransmissions 3 50 ≤ 3 * 50 ∧
    connectLossSynSends 50 0 ≤ 50 ∧
    acceptLossSynAckSends ≤ 50 ∧
    disconnectLossFinSends 50 0 ≤ 50 :=
  C10_bounded_effort 3 50 (by decide)

/-! ## Data plane — segmentation (RUDP_Socket_p::send, rudp_lib.cpp:541-639)

`std::min(m_protocolMTU, m_peersMTU) - sizeof(RUDP_header)` subtracts a
`size_t` from a `uint16_t`, so the value lives in `size_t` (mod 2^64);
`expected_packets` is that division plus one, stored in a `uint32_t`. -/

/-- The effective segment size `min(m_protocolMTU, m_peersMTU) - sizeof(RUDP_header)`
in `size_t` arithmetic (rudp_lib.cpp:547, 557). -/
def effSeg (mtu peerMtu : Nat) : Nat := (min mtu peerMtu + 2 ^ 64 - 12) % 2 ^ 64

/-- `expected_packets = buffer_size / (min(mtu, peer_mtu) - 12) + 1`
truncated to `uint32_t` (rudp_lib.cpp:547). -/
def expected_packets (len mtu peerMtu : Nat) : Nat :=
  (len / effSeg mtu peerMtu + 1) % 2 ^ 32

/-- A data segment as it leaves `send` in the loss-free run: its header
`seq_num`, its payload bytes, and whether the LAST flag is set. -/
structure DataSeg where
  seq : Nat
  payload : List Nat
  last : Bool
deriving DecidableEq

/-- The segments built by send's `for (i = 0; i < expected_packets; i++)`
loop in the loss-free run, counted down from the remaining packet count:
segment `i` carries `seq_num = i`, the LAST flag exactly on the final
iteration, and the next `min(buffer_size - total_bytes, seg)` payload bytes
(`rem.take seg`). -/
def sendSegsAux (seg : Nat) : Nat → Nat → List Nat → List DataSeg
  | 0, _, _ => []
  | n + 1, i, rem => ⟨i, rem.take seg, n == 0⟩ :: sendSegsAux seg n (i + 1) (rem.drop seg)

def sendSegs (seg : Nat) (B : List Nat) : List DataSeg :=
  sendSegsAux seg (B.length / seg + 1) 0 B

theorem sendSegsAux_length (seg : Nat) :
    ∀ (n i : Nat) (rem : List Nat), (sendSegsAux seg n i rem).length = n := by
  intro n
  induction n with
  | zero => intro i rem; rfl
  | succ n ihn =>
      intro i rem
      simp only [sendSegsAux, List.length_cons, ihn]

theorem effSeg_eq (mtu peerMtu : Nat) (h12 : 12 ≤ min mtu peerMtu)
    (hlt : min mtu peerMtu < 2 ^ 64) : effSeg mtu peerMtu = min mtu peerMtu - 12 := by
  unfold effSeg
  have h1 : min mtu peerMtu + 2 ^ 64 - 12 = (min mtu peerMtu - 12) + 2 ^ 64 := by omega
  rw [h1, Nat.add_mod_right, Nat.mod_eq_of_lt (by omega)]

theorem floor_succ_eq_ceil (x s : Nat) (hs : 0 < s) (hmod : x % s ≠ 0) :
    x / s + 1 = (x + s - 1) / s := by
  obtain ⟨q, hq⟩ : ∃ q, x / s = q := ⟨_, rfl⟩
  obtain ⟨r, hr⟩ : ∃ r, x % s = r := ⟨_, rfl⟩
  have hdm := Nat.div_add_mod x s
  rw [hq, hr] at hdm
  rw [hr] at hmod
  have hrs : r < s := hr ▸ Nat.mod_lt x hs
  have hsplit : x + s - 1 = (r - 1) + (q + 1) * s := by
    have h5 : (q + 1) * s = s * q + s := by ring
    omega
  rw [hq, hsplit, Nat.add_mul_div_right _ _ hs,
    Nat.div_eq_of_lt (show r - 1 < s by omega)]
  omega

/-! ### C3: segment count -/

/-- C3, the claim as stated is false: with both MTUs equal to 20 the
effective segment size is 8, and a send of exactly 8 bytes — a positive
exact multiple of seg — builds `8/8 + 1 = 2` segments (the second empty
with LAST), not the `⌈8/8⌉ = 1` segment the claim asserts. -/
theorem C3_counterexample :
    expected_packets 8 20 20 = 2 ∧
    (8 : Nat) / effSeg 20 20 = 1 ∧
    (sendSegs (effSeg 20 20) [1, 2, 3, 4, 5, 6, 7, 8]).length = 2 := by
  refine ⟨by decide, by decide, by decide⟩

/-- C3 (corrected): for every connected endpoint, `send(buf, len)` builds
exactly `⌊len / seg⌋ + 1` data segments with `seg = min(cfg_mtu, peer_mtu) − 12`
— one empty segment when `seg` divides `len` (including `len = 0`); this
equals `⌈len / seg⌉` exactly when `seg` does not divide `len`, so a `len`
that is a positive exact multiple of `seg` yields `len/seg + 1` segments,
not `len/seg`. -/
theorem C3_segment_count (B : List Nat) (mtu peerMtu : Nat)
    (hm : RUDP_MINIMAL_MTU ≤ mtu) (hp : RUDP_MINIMAL_MTU ≤ peerMtu)
    (hm16 : mtu < 2 ^ 16) (_hp16 : peerMtu < 2 ^ 16)
    (hlen : B.length < 2 ^ 32) :
    (sendSegs (effSeg mtu peerMtu) B).length = B.length / (min mtu peerMtu - 12) + 1 ∧
    expected_packets B.length mtu peerMtu = B.length / (min mtu peerMtu - 12) + 1 ∧
    (B.length % (min mtu peerMtu - 12) ≠ 0 →
      B.length / (min mtu peerMtu - 12) + 1 =
        (B.length + (min mtu peerMtu - 12) - 1) / (min mtu peerMtu - 12)) := by
  have hminN : RUDP_MINIMAL_MTU ≤ min mtu peerMtu := le_min hm hp
  have hmin64 : min mtu peerMtu < 2 ^ 64 := by
    have := min_le_left mtu peerMtu
    unfold RUDP_MINIMAL_MTU at hminN
    omega
  have h12 : 12 ≤ min mtu peerMtu := by unfold RUDP_MINIMAL_MTU at hminN; omega
  have heff := effSeg_eq mtu peerMtu h12 hmin64
  have hs8 : 8 ≤ min mtu peerMtu - 12 := by unfold RUDP_MINIMAL_MTU at hminN; omega
  refine ⟨?_, ?_, ?_⟩
  · rw [sendSegs, sendSegsAux_length, heff]
  · unfold expected_packets
    rw [heff]
    have hd8 : B.length / (min mtu peerMtu - 12) ≤ B.length / 8 :=
      Nat.div_le_div_left hs8 (by omega)
    have hd32 : B.length / 8 < 2 ^ 29 := (Nat.div_lt_iff_lt_mul (by omega)).mpr (by omega)
    exact Nat.mod_eq_of_lt (by omega)
  · exact fun hmod => floor_succ_eq_ceil B.length (min mtu peerMtu - 12) (by omega) hmod

/-- C3 witness: a 10-byte send between endpoints configured with MTUs 1458
and 500 (effective segment size 488) builds a single segment, and 10 is not
a multiple of 488, so floor+1 agrees with the ceiling there. -/
theorem C3_segment_count_witness :
    (sendSegs (effSeg 1458 500) [9, 8, 7, 6, 5, 4, 3, 2, 1, 0]).length =
      ([9, 8, 7, 6, 5, 4, 3, 2, 1, 0] : List Nat).length / (min 1458 500 - 12) + 1 ∧
    expected_packets ([9, 8, 7, 6, 5, 4, 3, 2, 1, 0] : List Nat).length 1458 500 =
      ([9, 8, 7, 6, 5, 4, 3, 2, 1, 0] : List Nat).length / (min 1458 500 - 12) + 1 ∧
    (([9, 8, 7, 6, 5, 4, 3, 2, 1, 0] : List Nat).length % (min 1458 500 - 12) ≠ 0 →
      ([9, 8, 7, 6, 5, 4, 3, 2, 1, 0] : List Nat).length / (min 1458 500 - 12) + 1 =
        (([9, 8, 7, 6, 5, 4, 3, 2, 1, 0] : List Nat).length + (min 1458 500 - 12) - 1) /
          (min 1458 500 - 12)) :=
  C3_segment_count [9, 8, 7, 6, 5, 4, 3, 2, 1, 0] 1458 500
    (by decide) (by decide) (by decide) (by decide) (by decide)

/-! ## Data plane — reassembly (RUDP_Socket_p::recv, rudp_lib.cpp:381-539) -/

/-- The clipped copy length of rudp_lib.cpp:515: `packet_size` is compared
as `(offset + packet_size) > buffer_size` in `uint32_t` arithmetic, and on
overflow reassigned `buffer_size - offset` — a `uint32_t` difference (which
wraps when `offset > buffer_size`) truncated into the `uint16_t`
`packet_size`. -/
def clipLenC (cap offset advLen : Nat) : Nat :=
  if cap < (offset + advLen) % 2 ^ 32 then ((cap + 2 ^ 32 - offset) % 2 ^ 32) % 2 ^ 16
  else advLen

/-- The destination range of the `memcpy(buffer_ptr + offset, ...)` at
rudp_lib.cpp:516 for an accepted in-order segment: start offset
`seq * (m_protocolMTU - 12)` truncated to `uint32_t` (rudp_lib.cpp:494,
where `segR` stands for the receiver's own `m_protocolMTU - 12`), and the
clipped length. Bytes `offset .. offset + len - 1` of the user buffer are
written. -/
def recvCopyFootprint (segR cap seq advLen : Nat) : Nat × Nat :=
  let offset := seq * segR % 2 ^ 32
  (offset, clipLenC cap offset advLen)

/-- `memcpy(buffer_ptr + offset, payload, payload.length)` on the user
buffer, modelling the in-bounds case `offset + payload.length ≤ buf.length`
(the only case in which the C copy stays inside the buffer; the raw
out-of-bounds footprint is `recvCopyFootprint`). -/
def bufWrite (buf : List Nat) (offset : Nat) (payload : List Nat) : List Nat :=
  buf.take offset ++ (payload ++ buf.drop (offset + payload.length))

/-- The `while (true)` reassembly loop of `recv` (rudp_lib.cpp:448-530) in
the loss-free run, one `DataSeg` per accepted datagram: duplicates
(`seq == prev_seq_num`) and out-of-order segments re-ACK and loop; an
in-order segment is copied at `offset = seq * segR mod 2^32` with the
clipped length, `total_bytes` grows by the advertised length before
clipping, and the loop returns on LAST or on `total_bytes > buffer_size`.
`none` means the supplied segment list ran out while still looping. -/
def recvLoop (segR cap : Nat) : List DataSeg → Nat → Nat → List Nat → Option (Nat × List Nat)
  | [], _, _, _ => none
  | s :: rest, prevSeq, total, buf =>
    if s.seq = prevSeq then recvLoop segR cap rest prevSeq total buf
    else if s.seq ≠ prevSeq + 1 then recvLoop segR cap rest prevSeq total buf
    else
      let total' := total + s.payload.length
      let offset := s.seq * segR % 2 ^ 32
      let copyLen := clipLenC cap offset s.payload.length
      let buf' := bufWrite buf offset (s.payload.take copyLen)
      if s.last then some (total', buf')
      else if cap < total' then some (total', buf')
      else recvLoop segR cap rest s.seq total' buf'

/-- `recv` in the loss-free run: the first accepted segment is copied at
offset 0 with length `min(total_bytes, buffer_size)` regardless of its
sequence number (rudp_lib.cpp:424), `prev_seq_num` takes its seq, and the
call returns early on overflow (checked first, rudp_lib.cpp:432) or LAST
(rudp_lib.cpp:442); otherwise the reassembly loop runs. -/
def recvRun (segR cap : Nat) (buf0 : List Nat) : List DataSeg → Option (Nat × List Nat)
  | [] => none
  | s0 :: rest =>
    let total := s0.payload.length
    let buf1 := bufWrite buf0 0 (s0.payload.take (if cap < total then cap else total))
    if cap < total then some (total, buf1)
    else if s0.last then some (total, buf1)
    else recvLoop segR cap rest s0.seq total buf1

/-! ### C2: buffer-bounds safety of recv -/

/-- C2, the code violates the claim: with recv buffer capacity 10 and
receiver MTU 1458 (offset multiplier 1446), the accepted in-order segment
seq = 1 with payload length 8 has offset 1446 > cap, so the clip
`buffer_size - offset` wraps in uint32 arithmetic and truncates to the
uint16 value 64100; the memcpy then writes 64100 bytes starting at
buf + 1446 — every one of them outside buf[0 .. 10). -/
theorem C2_oob_write :
    recvCopyFootprint 1446 10 1 8 = (1446, 64100) ∧
    10 ≤ (recvCopyFootprint 1446 10 1 8).1 ∧
    (recvCopyFootprint 1446 10 1 8).2 ≠ 0 := by
  refine ⟨by decide, by decide, by decide⟩

/-! ## Data plane — send's ACK-wait loop incl. the duplicate-ACK path (C4) -/

/-- The sender-side counters of `send`: `total_packets` (the next header
seq_num), `total_bytes` (the next payload window start), and the previously
accepted ACK seq (`prev_seq_num`, initialized to UINT32_MAX). -/
structure SendState where
  totalPackets : Nat
  totalBytes : Nat
  prevSeq : Nat
deriving DecidableEq

/-- A data packet as built at rudp_lib.cpp:557-565 for loop index `i`:
`seq_num = total_packets`, payload window starting at `total_bytes` of
length `min(buffer_size - total_bytes, seg)`, LAST iff `i` is the final
loop index. -/
structure BuiltSeg where
  idx : Nat
  seq : Nat
  offset : Nat
  len : Nat
  last : Bool
deriving DecidableEq

def buildSeg (seg lenB n i : Nat) (st : SendState) : BuiltSeg :=
  ⟨i, st.totalPackets, st.totalBytes, min (lenB - st.totalBytes) seg, i == n - 1⟩

/-- The ACK-wait loop of rudp_lib.cpp:567-629 driven by the list of valid
ACK seq values received (loss-free, so timeouts/drops are not modelled): a
duplicate ACK (`ack == prev_seq_num` and not the final segment) breaks to
the next loop index WITHOUT touching any counter (rudp_lib.cpp:611-615); a
stale ACK (`ack < total_packets`) retries; otherwise `prev_seq_num := ack`,
`total_bytes += packet_size`, `total_packets++` and the loop breaks. -/
def ackWaitRun (n i segLen : Nat) (st : SendState) : List Nat → Option SendState
  | [] => none
  | a :: rest =>
    if a = st.prevSeq ∧ i ≠ n - 1 then some st
    else if a < st.totalPackets then ackWaitRun n i segLen st rest
    else some ⟨st.totalPackets + 1, st.totalBytes + segLen, a⟩

/-- The outer `for (i = 0; i < expected_packets; i++)` loop of `send`,
collecting the packet built at each loop index; `ackss` supplies the ACK
seq values received while waiting at each index. -/
def sendRun (seg lenB n : Nat) : Nat → SendState → List (List Nat) → Option (List BuiltSeg)
  | i, st, ackss =>
    if n ≤ i then some []
    else
      match ackss with
      | [] => none
      | acks :: rest =>
        let b := buildSeg seg lenB n i st
        match ackWaitRun n i b.len st acks with
        | none => none
        | some st' =>
          match sendRun seg lenB n (i + 1) st' rest with
          | none => none
          | some bs => some (b :: bs)

/-! ### C4: seq_num equals the segment index -/

/-- C4, the code contradicts the claim's universal form: sending 24 bytes
with seg = 8 (4 segments), the ACK for segment 0 arrives, then while
awaiting segment 1's ACK a duplicate ACK 0 arrives; the duplicate-ACK path
advances the loop without incrementing `total_packets` or `total_bytes`, so
the packet built at loop index 2 carries `seq_num = 1 ≠ 2` (and re-sends the
same byte window at offset 8). -/
theorem C4_dup_ack_desync :
    sendRun 8 24 4 0 ⟨0, 0, 4294967295⟩ [[0], [0], [2], [2]] =
      some [⟨0, 0, 0, 8, false⟩, ⟨1, 1, 8, 8, false⟩, ⟨2, 1, 8, 8, false⟩,
        ⟨3, 2, 16, 8, true⟩] ∧
    ([⟨0, 0, 0, 8, false⟩, ⟨1, 1, 8, 8, false⟩, ⟨2, 1, 8, 8, false⟩,
        ⟨3, 2, 16, 8, true⟩] : List BuiltSeg).map BuiltSeg.seq = [0, 1, 1, 2] ∧
    ([⟨0, 0, 0, 8, false⟩, ⟨1, 1, 8, 8, false⟩, ⟨2, 1, 8, 8, false⟩,
        ⟨3, 2, 16, 8, true⟩] : List BuiltSeg).map BuiltSeg.idx = [0, 1, 2, 3] ∧
    ([0, 1, 1, 2] : List Nat) ≠ [0, 1, 2, 3] := by
  refine ⟨by decide, by decide, by decide, by decide⟩

/-! ### C1: round-trip -/

/-- C1, the claim as stated is false. Sender configured with MTU 20,
receiver with MTU 22: the effective segment size is `min(20,22) − 12 = 8`,
smaller than the receiver's own `22 − 12 = 10`. Sending the 10 bytes
0..9 (≤ the receiver's capacity 12) returns 10, but the receiver placed
segment 1 at offset `1 × 10` instead of `1 × 8`, so the buffer's first 10
bytes are NOT the sent bytes: the reassembly offset is computed from the
receiver's own MTU (rudp_lib.cpp:494), not the effective segment size. -/
theorem C1_counterexample :
    recvRun (22 - HEADER_SIZE) 12 (List.replicate 12 0)
        (sendSegs (effSeg 20 22) [0, 1, 2, 3, 4, 5, 6, 7, 8, 9]) =
      some (10, [0, 1, 2, 3, 4, 5, 6, 7, 0, 0, 8, 9]) ∧
    ([0, 1, 2, 3, 4, 5, 6, 7, 0, 0, 8, 9] : List Nat).take 10 ≠
      [0, 1, 2, 3, 4, 5, 6, 7, 8, 9] := by
  refine ⟨by decide, by decide⟩

theorem bufWrite_length (buf payload : List Nat) (offset : Nat)
    (h : offset + payload.length ≤ buf.length) :
    (bufWrite buf offset payload).length = buf.length := by
  unfold bufWrite
  rw [List.length_append, List.length_append, List.length_take, List.length_drop]
  omega

theorem bufWrite_take_prefix (buf payload : List Nat) (offset : Nat)
    (h : offset ≤ buf.length) :
    (bufWrite buf offset payload).take (offset + payload.length) =
      buf.take offset ++ payload := by
  unfold bufWrite
  have hA : (buf.take offset).length = offset := by
    rw [List.length_take]; omega
  rw [List.take_append_eq_append_take, hA]
  rw [List.take_of_length_le (by rw [hA]; omega)]
  congr 1
  have h2 : offset + payload.length - offset = payload.length := by omega
  rw [h2, List.take_append_eq_append_take, List.take_length payload, Nat.sub_self,
    List.take_zero, List.append_nil]

/-- One accepted in-order step of the reassembly loop, with the offset and
clip arithmetic discharged for the in-range case. -/
theorem recvLoop_cons (seg cap : Nat) (s : DataSeg) (rest : List DataSeg)
    (prevSeq total : Nat) (buf : List Nat)
    (h1 : ¬ s.seq = prevSeq) (h2 : s.seq = prevSeq + 1)
    (hcap : cap < 2 ^ 32)
    (hfit : s.seq * seg + s.payload.length ≤ cap) :
    recvLoop seg cap (s :: rest) prevSeq total buf =
      if s.last then
        some (total + s.payload.length, bufWrite buf (s.seq * seg) s.payload)
      else if cap < total + s.payload.length then
        some (total + s.payload.length, bufWrite buf (s.seq * seg) s.payload)
      else recvLoop seg cap rest s.seq (total + s.payload.length)
        (bufWrite buf (s.seq * seg) s.payload) := by
  have hmod : s.seq * seg % 2 ^ 32 = s.seq * seg := Nat.mod_eq_of_lt (by omega)
  have hclip : clipLenC cap (s.seq * seg) s.payload.length = s.payload.length := by
    unfold clipLenC
    rw [Nat.mod_eq_of_lt (by omega), if_neg (by omega)]
  simp only [recvLoop]
  rw [if_neg h1, if_neg (show ¬ s.seq ≠ prevSeq + 1 from fun hne => hne h2)]
  rw [hmod, hclip, List.take_length]

/-- The reassembly loop applied to the remaining loss-free segments
`i, i+1, ...` of a buffer: every write lands at the correct offset and the
accumulated prefix grows to the full message. -/
theorem recvLoop_reassembles (seg cap : Nat) (hseg : 0 < seg) (hcap : cap < 2 ^ 32) :
    ∀ n : Nat, ∀ (i : Nat) (rem buf : List Nat),
      1 ≤ i →
      i * seg + rem.length ≤ cap →
      buf.length = cap →
      n = rem.length / seg + 1 →
      ∃ buf2,
        recvLoop seg cap (sendSegsAux seg n i rem) (i - 1) (i * seg) buf =
          some (i * seg + rem.length, buf2) ∧
        buf2.take (i * seg + rem.length) = buf.take (i * seg) ++ rem ∧
        buf2.length = cap := by
  intro n
  induction n with
  | zero =>
      intro i rem buf _ _ _ h4
      exact (Nat.succ_ne_zero _ h4.symm).elim
  | succ m ih =>
      intro i rem buf h1 h2 h3 h4
      have hq : rem.length / seg = m := Nat.add_right_cancel h4.symm
      cases m with
      | zero =>
          have hlt : rem.length < seg := by
            by_contra hge
            push_neg at hge
            have hd := (Nat.one_le_div_iff hseg).mpr hge
            rw [hq] at hd
            exact absurd hd (by omega)
          refine ⟨bufWrite buf (i * seg) rem, ?_, ?_, ?_⟩
          · simp only [sendSegsAux]
            rw [List.take_of_length_le (le_of_lt hlt)]
            rw [recvLoop_cons seg cap ⟨i, rem, (0 == 0 : Bool)⟩ _ (i - 1) (i * seg) buf
              (show ¬ i = i - 1 by omega) (show i = (i - 1) + 1 by omega) hcap
              (show i * seg + rem.length ≤ cap from h2)]
            rfl
          · exact bufWrite_take_prefix buf rem (i * seg) (by omega)
          · exact (bufWrite_length buf rem (i * seg) (by omega)).trans h3
      | succ m2 =>
          have hsle : seg ≤ rem.length := by
            have hd : 1 ≤ rem.length / seg := by rw [hq]; omega
            exact (Nat.one_le_div_iff hseg).mp hd
          have hlentake : (rem.take seg).length = seg := by
            rw [List.length_take]; omega
          have hmul : (i + 1) * seg = i * seg + seg := by ring
          have hdropq : (rem.drop seg).length / seg = m2 := by
            have hd : rem.length - seg + seg = rem.length := by omega
            have hadd := Nat.add_div_right (rem.length - seg) hseg
            rw [hd, hq] at hadd
            rw [List.length_drop]
            exact Nat.add_right_cancel hadd.symm
          obtain ⟨buf2, hrun, htake, hlen2⟩ := ih (i + 1) (rem.drop seg)
            (bufWrite buf (i * seg) (rem.take seg))
            (by omega)
            (by rw [List.length_drop]; omega)
            ((bufWrite_length buf (rem.take seg) (i * seg) (by rw [hlentake]; omega)).trans h3)
            (by rw [hdropq])
          refine ⟨buf2, ?_, ?_, hlen2⟩
          · simp only [sendSegsAux]
            rw [recvLoop_cons seg cap ⟨i, rem.take seg, (Nat.succ m2 == 0 : Bool)⟩ _
              (i - 1) (i * seg) buf
              (show ¬ i = i - 1 by omega) (show i = (i - 1) + 1 by omega) hcap
              (show i * seg + (rem.take seg).length ≤ cap by rw [hlentake]; omega)]
            rw [if_neg (show ¬ ((Nat.succ m2 == 0 : Bool) = true) from Bool.false_ne_true)]
            rw [if_neg (show ¬ cap < i * seg + (rem.take seg).length by rw [hlentake]; omega)]
            rw [hmul] at hrun
            rw [show i * seg + seg + (rem.drop seg).length = i * seg + rem.length from by
              rw [List.length_drop]; omega] at hrun
            rw [show i * seg + (rem.take seg).length = i * seg + seg from by rw [hlentake]]
            exact hrun
          · have hpre := bufWrite_take_prefix buf (rem.take seg) (i * seg) (by omega)
            rw [hlentake] at hpre
            rw [hmul] at htake
            rw [show i * seg + seg + (rem.drop seg).length = i * seg + rem.length from by
              rw [List.length_drop]; omega] at htake
            rw [hpre] at htake
            rw [List.append_assoc, List.take_append_drop] at htake
            exact htake

/-- The loss-free send/recv exchange with a common segmentation unit: if the
receiver's offset multiplier equals the segment size the sender cuts with,
every message of length ≤ cap is reassembled exactly. -/
theorem recvRun_sendSegs_roundtrip (seg cap : Nat) (B buf0 : List Nat)
    (hseg : 0 < seg) (hlen : B.length ≤ cap) (hbuf : buf0.length = cap)
    (hcap : cap < 2 ^ 32) :
    ∃ buf, recvRun seg cap buf0 (sendSegs seg B) = some (B.length, buf) ∧
      buf.take B.length = B ∧ buf.length = cap := by
  cases hq : B.length / seg with
  | zero =>
      have hlt : B.length < seg := by
        by_contra hge
        push_neg at hge
        have hd := (Nat.one_le_div_iff hseg).mpr hge
        rw [hq] at hd
        exact absurd hd (by omega)
      refine ⟨bufWrite buf0 0 B, ?_, ?_, ?_⟩
      · unfold sendSegs
        rw [hq]
        simp only [sendSegsAux]
        rw [List.take_of_length_le (le_of_lt hlt)]
        simp only [recvRun]
        simp only [if_neg (show ¬ cap < B.length by omega)]
        rw [List.take_length]
        rfl
      · have hpre := bufWrite_take_prefix buf0 B 0 (by omega)
        simpa using hpre
      · exact (bufWrite_length buf0 B 0 (by omega)).trans hbuf
  | succ q =>
      have hsle : seg ≤ B.length := (Nat.one_le_div_iff hseg).mp (by rw [hq]; omega)
      have hlentake : (B.take seg).length = seg := by rw [List.length_take]; omega
      have hq2 : (B.drop seg).length / seg = q := by
        have hd : B.length - seg + seg = B.length := by omega
        have hadd := Nat.add_div_right (B.length - seg) hseg
        rw [hd, hq] at hadd
        rw [List.length_drop]
        exact Nat.add_right_cancel hadd.symm
      obtain ⟨buf2, hrun, htake, hlen2⟩ := recvLoop_reassembles seg cap hseg hcap (q + 1) 1
        (B.drop seg) (bufWrite buf0 0 (B.take seg))
        (by omega)
        (by rw [List.length_drop, one_mul]; omega)
        ((bufWrite_length buf0 (B.take seg) 0 (by rw [hlentake]; omega)).trans hbuf)
        (by rw [hq2])
      refine ⟨buf2, ?_, ?_, hlen2⟩
      · unfold sendSegs
        rw [hq]
        simp only [sendSegsAux]
        simp only [recvRun]
        simp only [hlentake]
        simp only [if_neg (show ¬ cap < seg by omega)]
        rw [List.take_of_length_le (le_of_eq hlentake)]
        rw [one_mul, List.length_drop] at hrun
        rw [show seg + (B.length - seg) = B.length from by omega] at hrun
        exact hrun
      · rw [one_mul, List.length_drop] at htake
        rw [show seg + (B.length - seg) = B.length from by omega] at htake
        have hpre := bufWrite_take_prefix buf0 (B.take seg) 0 (by omega)
        rw [hlentake, Nat.zero_add, List.take_zero, List.nil_append] at hpre
        rw [hpre] at htake
        rw [List.take_append_drop] at htake
        exact htake

/-- C1 (corrected): for every connected endpoint pair and every byte array B
whose length is at most the receiver's buffer capacity, a recv corresponding
to a send(B) on the peer returns length(B) with the receiver's buffer
holding exactly the bytes of B, PROVIDED the receiver's configured MTU is at
most the sender's — i.e. the effective segment size min(cfg_mtu, peer_mtu) − 12
equals the receiver's own cfg_mtu − 12, which is what recv uses as its
reassembly offset multiplier (rudp_lib.cpp:494). When the sender's segment
size is strictly smaller than the receiver's cfg_mtu − 12, multi-segment
messages are reassembled at wrong offsets (see the counterexample). -/
theorem C1_roundtrip (mtuS mtuR cap : Nat) (B buf0 : List Nat)
    (_hs : RUDP_MINIMAL_MTU ≤ mtuS) (hr : RUDP_MINIMAL_MTU ≤ mtuR)
    (hr16 : mtuR < 2 ^ 16) (hrs : mtuR ≤ mtuS)
    (hlen : B.length ≤ cap) (hbuf : buf0.length = cap) (hcap : cap < 2 ^ 32) :
    ∃ buf, recvRun (mtuR - HEADER_SIZE) cap buf0 (sendSegs (effSeg mtuS mtuR) B) =
        some (B.length, buf) ∧
      buf.take B.length = B ∧ buf.length = cap := by
  unfold RUDP_MINIMAL_MTU at hr
  have hmin : min mtuS mtuR = mtuR := min_eq_right hrs
  have heff : effSeg mtuS mtuR = mtuR - 12 := by
    rw [effSeg_eq mtuS mtuR (by omega) (by omega), hmin]
  rw [heff, show HEADER_SIZE = 12 from rfl]
  exact recvRun_sendSegs_roundtrip (mtuR - 12) cap B buf0 (by omega) hlen hbuf hcap

/-- C1 witness: a 20-byte message from a sender configured with MTU 22 to a
receiver configured with MTU 20 (effective segment size 8, three segments)
into a 24-byte receive buffer. -/
theorem C1_roundtrip_witness :
    ∃ buf, recvRun (20 - HEADER_SIZE) 24 (List.replicate 24 0)
        (sendSegs (effSeg 22 20)
          [1, 2, 3, 4, 5, 6, 7, 8, 9, 10, 11, 12, 13, 14, 15, 16, 17, 18, 19, 20]) =
        some (20, buf) ∧
      buf.take 20 = [1, 2, 3, 4, 5, 6, 7, 8, 9, 10, 11, 12, 13, 14, 15, 16, 17, 18, 19, 20] ∧
      buf.length = 24 :=
  C1_roundtrip 22 20 24
    [1, 2, 3, 4, 5, 6, 7, 8, 9, 10, 11, 12, 13, 14, 15, 16, 17, 18, 19, 20]
    (List.replicate 24 0)
    (by decide) (by decide) (by decide) (by decide) (by decide) (by decide) (by decide)

end RUDP
